import Mathlib

/-!
Shallow embedding of the MIDI controller protocol of Linux Show Player
(`lisp/plugins/controller/protocols/midi.py` together with the device
tables in `lisp/plugins/controller/devices/apc_midi_mk1.py`), and proofs
of the specified properties of the binding engine, the shift layer, the
feedback emitter and the device colour tables.
-/

namespace LispController

/-- Inbound/outbound MIDI messages, restricted to the message classes the
router inspects (`note_on`, `note_off`, `control_change`).  Note-class
messages carry a `velocity` field; `control_change` carries `control` and
`value` and has no velocity field (mirroring the mido message classes the
Python code probes with `hasattr(message, "velocity")`). -/
inductive Msg where
  | note_on (channel note velocity : Nat)
  | note_off (channel note velocity : Nat)
  | control_change (channel control value : Nat)
  deriving DecidableEq

/-! `ApcButtonRange` from `apc_midi_mk1.py`: named inclusive ranges of the
APC mini's control identifiers. -/
namespace ApcButtonRange

def PushButton : Nat × Nat := (0, 63)
def BottomSide : Nat × Nat := (64, 71)
def RightSide : Nat × Nat := (82, 89)
def Shift : Nat × Nat := (98, 98)
def Faders : Nat × Nat := (48, 56)

end ApcButtonRange

/-! `ApcSideButtonColor` from `apc_midi_mk1.py`. -/
namespace ApcSideButtonColor

def Off : Nat := 0
def On : Nat := 1
def Blink : Nat := 2

end ApcSideButtonColor

/-! `ApcPushButtonColor` from `apc_midi_mk1.py`. -/
namespace ApcPushButtonColor

def Off : Nat := 0
def Green : Nat := 1
def GreenBlink : Nat := 2
def Red : Nat := 3
def RedBlink : Nat := 4
def Yellow : Nat := 5
def YellowBlink : Nat := 6

end ApcPushButtonColor

/-- `note_in_range` from `apc_midi_mk1.py`:
`button_range[0] <= note <= button_range[1]`. -/
def note_in_range (note : Nat) (button_range : Nat × Nat) : Bool :=
  button_range.1 ≤ note && note ≤ button_range.2

/-- `previous_page_button = ApcButtonRange.BottomSide[0] + 2` (= 66). -/
def previous_page_button : Nat := ApcButtonRange.BottomSide.1 + 2

/-- `next_page_button = ApcButtonRange.BottomSide[0] + 3` (= 67). -/
def next_page_button : Nat := ApcButtonRange.BottomSide.1 + 3

/-- `stop_all_button = ApcButtonRange.RightSide[1]` (= 89). -/
def stop_all_button : Nat := ApcButtonRange.RightSide.2

/-- `shift_button = ApcButtonRange.Shift[0]` (= 98). -/
def shift_button : Nat := ApcButtonRange.Shift.1

/-- Python's short-circuit test
`getattr(message, "type") == "note_on" and getattr(message, "note") == n`. -/
def isNoteOnAt (m : Msg) (n : Nat) : Bool :=
  match m with
  | .note_on _ note _ => note == n
  | _ => false

/-- Python's short-circuit test
`getattr(message, "type") == "note_off" and getattr(message, "note") == n`. -/
def isNoteOffAt (m : Msg) (n : Nat) : Bool :=
  match m with
  | .note_off _ note _ => note == n
  | _ => false

/-- `getattr(message, "type") == "control_change" and getattr(message, "control") == c`. -/
def isControlChangeAt (m : Msg) (c : Nat) : Bool :=
  match m with
  | .control_change _ control _ => control == c
  | _ => false

/-- `hasattr(message, "velocity")`: note-class messages carry a velocity. -/
def Msg.hasVelocity : Msg → Bool
  | .note_on .. => true
  | .note_off .. => true
  | .control_change .. => false

/-- `getattr(message, "note")` succeeds: only note-class messages carry a
`note` attribute; on a `control_change` the access raises `AttributeError`. -/
def Msg.hasNote : Msg → Bool
  | .note_on .. => true
  | .note_off .. => true
  | .control_change .. => false

/-- The `note` attribute of a note-class message. -/
def Msg.noteOf : Msg → Option Nat
  | .note_on _ n _ => some n
  | .note_off _ n _ => some n
  | .control_change .. => none

/-- `message.copy(velocity=0)` applied when `hasattr(message, "velocity")`,
and the identity otherwise — the normalisation the router applies before
emitting the observer echo. -/
def echoOf : Msg → Msg
  | .note_on ch n _ => .note_on ch n 0
  | .note_off ch n _ => .note_off ch n 0
  | .control_change ch c v => .control_change ch c v

/-- The side effects of handling one inbound message, in program order:
a message sent on the outbound MIDI transport (`_midi_output.send`), the
`Application().layout.stop_all()` call, the page-navigation calls, a
`live_volume` assignment on a media cue's Volume element (recorded as the
cue identifier and the raw 0–127 controller value the code divides
by 127), and the `protocol_event.emit(str(message))` observer echo. -/
inductive Effect where
  | sent (m : Msg)
  | stopAll
  | selectPreviousPage
  | selectNextPage
  | volumeSet (cueId value : Nat)
  | emit (m : Msg)
  deriving DecidableEq

def Effect.isEmit : Effect → Bool
  | .emit _ => true
  | _ => false

/-- The engine's surroundings: whether the active layout is a `CartLayout`,
the media cues the layout reports at a fader column (each paired with
whether its media has a "Volume" element), and whether the outbound MIDI
transport is open. -/
structure Env where
  layoutIsCart : Bool
  cuesAtColumn : Int → List (Nat × Bool)
  outputOpen : Bool

/-- `Midi._send_feedback`: builds `Message("note_on", channel=0, note=key,
velocity=color)` and sends it only when the output transport is open. -/
def send_feedback (outputOpen : Bool) (key color : Nat) : List Msg :=
  if outputOpen then [Msg.note_on 0 key color] else []

/-- `Midi._enable_shift_mode`: a no-op when the shift flag is already set;
otherwise sets it and sends "On" feedback to `ApcButtonRange.RightSide[1]`,
`previous_page_button` and `next_page_button`.  Returns the new shift flag
and the transport sends. -/
def enable_shift_mode (outputOpen : Bool) (shift : Bool) : Bool × List Msg :=
  if shift then (shift, [])
  else
    (true,
      send_feedback outputOpen ApcButtonRange.RightSide.2 ApcSideButtonColor.On ++
      send_feedback outputOpen previous_page_button ApcSideButtonColor.On ++
      send_feedback outputOpen next_page_button ApcSideButtonColor.On)

/-- `Midi._disable_shift_mode`: dual of `enable_shift_mode`. -/
def disable_shift_mode (outputOpen : Bool) (shift : Bool) : Bool × List Msg :=
  if !shift then (shift, [])
  else
    (false,
      send_feedback outputOpen ApcButtonRange.RightSide.2 ApcSideButtonColor.Off ++
      send_feedback outputOpen previous_page_button ApcSideButtonColor.Off ++
      send_feedback outputOpen next_page_button ApcSideButtonColor.Off)

/-- The `live_volume` updates of the cart-layout fader branch:
`column = control - ApcButtonRange.Faders[0]`; for every media cue at that
column whose media has a "Volume" element, set its live volume from the
controller value. -/
def volumeUpdates (env : Env) (control value : Nat) : List Effect :=
  let column : Int := (control : Int) - (ApcButtonRange.Faders.1 : Int)
  (env.cuesAtColumn column).filterMap
    (fun cue => if cue.2 then some (Effect.volumeSet cue.1 value) else none)

/-- `Midi.__new_message`: the router.  Takes the environment, the current
shift flag and the inbound message; returns the new shift flag and the
side effects in program order.  Mirrors the Python branch structure:
shift activation, shift deactivation, the three shift-layer commands
(each of which returns), the reserved master-fader short-circuit
(`control == ApcButtonRange.Faders[1]`, returns), the cart-layout fader
routing (falls through), and finally the velocity-zeroed observer echo. -/
def new_message (env : Env) (shift : Bool) (m : Msg) : Bool × List Effect :=
  if !shift && isNoteOnAt m shift_button then
    let r := enable_shift_mode env.outputOpen shift
    (r.1, r.2.map Effect.sent)
  else if shift && isNoteOffAt m shift_button then
    let r := disable_shift_mode env.outputOpen shift
    (r.1, r.2.map Effect.sent)
  else if shift && isNoteOnAt m stop_all_button then
    (shift,
      [Effect.stopAll] ++
        (send_feedback env.outputOpen stop_all_button
          ApcSideButtonColor.Blink).map Effect.sent)
  else if shift && isNoteOnAt m previous_page_button then
    (shift, if env.layoutIsCart then [Effect.selectPreviousPage] else [])
  else if shift && isNoteOnAt m next_page_button then
    (shift, if env.layoutIsCart then [Effect.selectNextPage] else [])
  else if isControlChangeAt m ApcButtonRange.Faders.2 then
    (shift, [])
  else
    let faderFx :=
      match m with
      | .control_change _ control value =>
          if env.layoutIsCart then volumeUpdates env control value else []
      | _ => []
    (shift, faderFx ++ [Effect.emit (echoOf m)])

/-- Handling a sequence of inbound messages in arrival order, threading the
shift flag and concatenating the side effects. -/
def run (env : Env) (shift : Bool) : List Msg → Bool × List Effect
  | [] => (shift, [])
  | m :: ms =>
    let r := new_message env shift m
    let rest := run env r.1 ms
    (rest.1, r.2 ++ rest.2)

/-- A concrete environment: no cart layout, no cues, output transport open. -/
def sampleEnv : Env :=
  { layoutIsCart := false, cuesAtColumn := fun _ => [], outputOpen := true }

/-- A cue as seen from `Midi.__cue_status_changed`: the three bitmask tests
the handler performs on `cue.state` (`CueState.IsRunning`,
`CueState.IsPaused`, `CueState.IsStopped`; flags may combine), and the
cue's stored `controller` entries for the "midi" key — pairs of a stored
message-key string and an action name. -/
structure CueModel where
  isRunning : Bool
  isPaused : Bool
  isStopped : Bool
  midiEntries : List (String × String)

/-- The body of `Midi.__cue_status_changed`'s loop over the cue's "midi"
entries.  `midi_from_str` is the external message codec, passed in
abstractly.  For each entry, `midi_from_str(key).note` raises
`AttributeError` when the parsed message has no `note` attribute
(modelled as the second component becoming `true`, with no further entry
processed); otherwise notes outside the push-button range are skipped
and the first matching state flag picks the feedback colour.  Returns the
transport sends in order, and whether the handler raised. -/
def processEntries (midi_from_str : String → Msg) (outputOpen : Bool)
    (cue : CueModel) : List (String × String) → List Msg × Bool
  | [] => ([], false)
  | (key, _) :: rest =>
    match (midi_from_str key).noteOf with
    | none => ([], true)
    | some note =>
      let here :=
        if !note_in_range note ApcButtonRange.PushButton then []
        else if cue.isRunning then
          send_feedback outputOpen note ApcPushButtonColor.Green
        else if cue.isPaused then
          send_feedback outputOpen note ApcPushButtonColor.GreenBlink
        else if cue.isStopped then
          send_feedback outputOpen note ApcPushButtonColor.Yellow
        else []
      let r := processEntries midi_from_str outputOpen cue rest
      (here ++ r.1, r.2)

/-- `Midi.__cue_status_changed`: runs the loop over `cue.controller['midi']`. -/
def cue_status_changed (midi_from_str : String → Msg) (outputOpen : Bool)
    (cue : CueModel) : List Msg × Bool :=
  processEntries midi_from_str outputOpen cue cue.midiEntries

/-- `MidiSettings.loadSettings`: for each stored `(key, action)` entry,
parse the key through the external codec and append the parsed message
with its action to the model; an entry whose parse raises (modelled by
`none`) is skipped with a warning and loading continues. -/
def loadSettings (midi_from_str : String → Option Msg) :
    List (String × String) → List (Msg × String)
  | [] => []
  | (key, action) :: rest =>
    match midi_from_str key with
    | some m => (m, action) :: loadSettings midi_from_str rest
    | none => loadSettings midi_from_str rest

/-- Modelled from the spec: the repository source has no `mapColor`
function — `apc_midi_mk1.py` only declares the colour tables
(`ApcSideButtonColor`, `ApcPushButtonColor`) and the call sites pick
codes directly.  This follows the spec's words (§4.1): a control in the
extended push-button range keeps the LogicalColor's native code; any
other control maps Off to 0 and any other colour to
`(nativeCode mod 3) + 1`. -/
def mapColor (controlIdentifier : Nat) (logical : Nat) : Nat :=
  if note_in_range controlIdentifier ApcButtonRange.PushButton then logical
  else if logical = ApcPushButtonColor.Off then 0
  else logical % 3 + 1

/-- Modelled from the spec: the fold the spec's own example table
describes (Green→1, GreenBlink→2, Red→1, RedBlink→2, Yellow→1,
YellowBlink→2) — Off to 0, solid colours to On (1), blink variants to
Blink (2), i.e. `((nativeCode - 1) mod 2) + 1` for a reduced-palette
control. -/
def mapColorFolded (controlIdentifier : Nat) (logical : Nat) : Nat :=
  if note_in_range controlIdentifier ApcButtonRange.PushButton then logical
  else if logical = ApcPushButtonColor.Off then 0
  else (logical - 1) % 2 + 1

/-- Spec-side description of the feedback the emitter owes one "midi"
entry of a cue (spec §4.4): skip identifiers outside the push-button
range; otherwise first match over the precedence list Running→Green,
Paused→GreenBlink, Stopped→Yellow picks the colour, other states produce
nothing; transmit as a channel-0 note-on, dropped when the transport is
closed. -/
def specEntryFeedback (outputOpen : Bool) (cue : CueModel) (m : Msg) : List Msg :=
  match m.noteOf with
  | none => []
  | some note =>
    if note_in_range note ApcButtonRange.PushButton then
      let precedence : List (Bool × Nat) :=
        [(cue.isRunning, ApcPushButtonColor.Green),
         (cue.isPaused, ApcPushButtonColor.GreenBlink),
         (cue.isStopped, ApcPushButtonColor.Yellow)]
      match precedence.find? (fun p => p.1) with
      | some p => if outputOpen then [Msg.note_on 0 note p.2] else []
      | none => []
    else []

/-- Every message `volumeUpdates` records is a `volumeSet` carrying the
inbound controller value. -/
lemma mem_volumeUpdates (env : Env) (control value : Nat) (e : Effect)
    (he : e ∈ volumeUpdates env control value) :
    ∃ cueId, e = Effect.volumeSet cueId value := by
  simp only [volumeUpdates, List.mem_filterMap] at he
  obtain ⟨cue, _, hcue⟩ := he
  split at hcue
  · exact ⟨cue.1, (Option.some_inj.mp hcue).symm⟩
  · cases hcue

/-- Every message `send_feedback` puts on the transport is a channel-0
note-on of the given key and colour. -/
lemma mem_send_feedback (o : Bool) (k c : Nat) (msg : Msg)
    (h : msg ∈ send_feedback o k c) : msg = Msg.note_on 0 k c := by
  cases o <;> simp [send_feedback] at h
  exact h

/-- Every transport send of `enable_shift_mode` is a channel-0 note-on. -/
lemma mem_enable_shift (o s : Bool) (msg : Msg)
    (h : msg ∈ (enable_shift_mode o s).2) : ∃ k c, msg = Msg.note_on 0 k c := by
  cases s <;> cases o <;> simp [enable_shift_mode, send_feedback] at h
  rcases h with h | h | h <;> exact ⟨_, _, h⟩

/-- Every transport send of `disable_shift_mode` is a channel-0 note-on. -/
lemma mem_disable_shift (o s : Bool) (msg : Msg)
    (h : msg ∈ (disable_shift_mode o s).2) : ∃ k c, msg = Msg.note_on 0 k c := by
  cases s <;> cases o <;> simp [disable_shift_mode, send_feedback] at h
  rcases h with h | h | h <;> exact ⟨_, _, h⟩

/-- Shape of every side effect one `new_message` call can produce: a
transport send is a channel-0 note-on, an observer echo is exactly the
velocity-normalised copy of the inbound message, a volume update carries
the inbound controller value. -/
lemma new_message_effects (env : Env) (shift : Bool) (m : Msg) (e : Effect)
    (he : e ∈ (new_message env shift m).2) :
    (∃ k c, e = Effect.sent (Msg.note_on 0 k c)) ∨ e = Effect.stopAll ∨
    e = Effect.selectPreviousPage ∨ e = Effect.selectNextPage ∨
    (∃ cueId v, e = Effect.volumeSet cueId v) ∨ e = Effect.emit (echoOf m) := by
  rcases m with ⟨ch, n, v⟩ | ⟨ch, n, v⟩ | ⟨ch, ctl, v⟩ <;>
    (unfold new_message at he; split_ifs at he) <;>
    first
    | exact absurd he (List.not_mem_nil _)
    | (simp only [List.mem_map] at he
       obtain ⟨msg, hmem, rfl⟩ := he
       first
       | (obtain ⟨k, c, rfl⟩ := mem_enable_shift _ _ _ hmem
          exact Or.inl ⟨k, c, rfl⟩)
       | (obtain ⟨k, c, rfl⟩ := mem_disable_shift _ _ _ hmem
          exact Or.inl ⟨k, c, rfl⟩))
    | (simp only [List.cons_append, List.nil_append, List.mem_cons,
         List.mem_map] at he
       rcases he with rfl | ⟨msg, hmem, rfl⟩
       · exact Or.inr (Or.inl rfl)
       · have hshape := mem_send_feedback _ _ _ _ hmem
         subst hshape
         exact Or.inl ⟨_, _, rfl⟩)
    | (simp only [List.mem_append, List.nil_append, List.mem_singleton] at he
       rcases he with he | rfl
       · obtain ⟨cueId, rfl⟩ := mem_volumeUpdates _ _ _ _ he
         exact Or.inr (Or.inr (Or.inr (Or.inr (Or.inl ⟨cueId, _, rfl⟩))))
       · simp [echoOf])
    | (simp only [List.nil_append, List.mem_singleton] at he
       subst he
       simp [echoOf])

/-- Claim C1, counterexample.  An inbound `ControlChange(control=56,
value=127)` with no active cart layout hits the reserved master-fader
short-circuit (`56 = ApcButtonRange.Faders[1]`) and the router returns
immediately: the effect list is empty, so in particular no observer echo
is published, contrary to the claim that lookup/echo still proceeds. -/
theorem c1_counterexample :
    new_message sampleEnv false (Msg.control_change 0 56 127) = (false, []) ∧
    Effect.emit (echoOf (Msg.control_change 0 56 127)) ∉
      (new_message sampleEnv false (Msg.control_change 0 56 127)).2 := by
  constructor
  · rfl
  · intro h
    cases h

/-- Claim C1, amended.  A `ControlChange` on control 56 — the designated
master-fader control — is consumed by the reserved short-circuit: no
live-parameter update is attempted and no binding lookup or observer
echo occurs.  A `ControlChange` on any other control, when the active
layout is not a cart layout, attempts no live-parameter update and
processing continues to lookup/echo: the message is echoed normally. -/
theorem c1_amended (env : Env) (shift : Bool) (ch v c : Nat)
    (hcart : env.layoutIsCart = false) (hc : c ≠ 56) :
    new_message env shift (Msg.control_change ch 56 v) = (shift, []) ∧
    new_message env shift (Msg.control_change ch c v) =
      (shift, [Effect.emit (Msg.control_change ch c v)]) := by
  constructor <;>
    simp [new_message, isNoteOnAt, isNoteOffAt, isControlChangeAt,
      ApcButtonRange.Faders, echoOf, hcart, hc]

/-- Witness for `c1_amended` at the layout-free environment, control 55. -/
theorem c1_amended_witness :
    sampleEnv.layoutIsCart = false ∧ (55 : Nat) ≠ 56 ∧
    new_message sampleEnv false (Msg.control_change 0 56 127) = (false, []) ∧
    new_message sampleEnv false (Msg.control_change 0 55 127) =
      (false, [Effect.emit (Msg.control_change 0 55 127)]) :=
  ⟨rfl, by decide,
    (c1_amended sampleEnv false 0 127 55 rfl (by decide)).1,
    (c1_amended sampleEnv false 0 127 55 rfl (by decide)).2⟩

/-- Claim C2, counterexample.  Control 89 lies outside the push-button
range, so the spec's own `(nativeCode mod 3) + 1` rule sends Green
(native code 1) to 2, not to the claimed 1, and sends Yellow (native
code 5) to 3 — outside the claimed set `\x7b1, 2\x7d`. -/
theorem c2_counterexample :
    mapColor 89 ApcPushButtonColor.Green = 2 ∧
    mapColor 89 ApcPushButtonColor.Green ≠ 1 ∧
    mapColor 89 ApcPushButtonColor.Yellow = 3 ∧
    ¬(mapColor 89 ApcPushButtonColor.Yellow = 1 ∨
      mapColor 89 ApcPushButtonColor.Yellow = 2) := by
  refine ⟨rfl, by decide, rfl, by decide⟩

/-- Claim C2, amended.  For every control identifier outside the extended
push-button range, the folded colour mapping sends Off to device code 0
and every other LogicalColor `c` of the 7-value palette to
`((nativeCode - 1) mod 2) + 1`, a value always in `\x7b1, 2\x7d`,
deterministically and independently of which colour variant was
requested: Green(1)→1, GreenBlink(2)→2, Red(3)→1, RedBlink(4)→2,
Yellow(5)→1, YellowBlink(6)→2. -/
theorem c2_amended (controlIdentifier logical : Nat)
    (hid : note_in_range controlIdentifier ApcButtonRange.PushButton = false)
    (hlog : 1 ≤ logical ∧ logical ≤ 6) :
    mapColorFolded controlIdentifier ApcPushButtonColor.Off = 0 ∧
    mapColorFolded controlIdentifier logical = (logical - 1) % 2 + 1 ∧
    (mapColorFolded controlIdentifier logical = 1 ∨
      mapColorFolded controlIdentifier logical = 2) ∧
    mapColorFolded controlIdentifier ApcPushButtonColor.Green = 1 ∧
    mapColorFolded controlIdentifier ApcPushButtonColor.GreenBlink = 2 ∧
    mapColorFolded controlIdentifier ApcPushButtonColor.Red = 1 ∧
    mapColorFolded controlIdentifier ApcPushButtonColor.RedBlink = 2 ∧
    mapColorFolded controlIdentifier ApcPushButtonColor.Yellow = 1 ∧
    mapColorFolded controlIdentifier ApcPushButtonColor.YellowBlink = 2 := by
  obtain ⟨h1, h6⟩ := hlog
  simp only [mapColorFolded, hid, Bool.false_eq_true, if_false,
    ApcPushButtonColor.Off, ApcPushButtonColor.Green,
    ApcPushButtonColor.GreenBlink, ApcPushButtonColor.Red,
    ApcPushButtonColor.RedBlink, ApcPushButtonColor.Yellow,
    ApcPushButtonColor.YellowBlink]
  interval_cases logical <;> simp

/-- Witness for `c2_amended` at control 89, colour Yellow. -/
theorem c2_amended_witness :
    note_in_range 89 ApcButtonRange.PushButton = false ∧
    ((1 : Nat) ≤ 5 ∧ (5 : Nat) ≤ 6) ∧
    mapColorFolded 89 ApcPushButtonColor.Off = 0 ∧
    mapColorFolded 89 5 = 1 :=
  ⟨by decide, ⟨by decide, by decide⟩,
    (c2_amended 89 5 (by decide) ⟨by decide, by decide⟩).1,
    (c2_amended 89 5 (by decide) ⟨by decide, by decide⟩).2.2.2.2.2.2.2.1⟩

/-- Claim C10: a shift-control event arriving in the non-matching shift
state is not consumed by the shift machinery.  A NoteOn on the shift
control (note 98) while shift is already active, and a NoteOff on the
shift control while shift is inactive, each fall through every shift
step unchanged (the shift flag is untouched, no shift feedback is sent)
and proceed to ordinary binding lookup and observer echo: the only side
effect is the echo with velocity zeroed. -/
theorem c10_shift_passthrough (env : Env) (ch v ch2 v2 : Nat) :
    new_message env true (Msg.note_on ch 98 v) =
      (true, [Effect.emit (Msg.note_on ch 98 0)]) ∧
    new_message env false (Msg.note_off ch2 98 v2) =
      (false, [Effect.emit (Msg.note_off ch2 98 0)]) := by
  constructor <;>
    simp [new_message, isNoteOnAt, isNoteOffAt, isControlChangeAt,
      shift_button, ApcButtonRange.Shift, stop_all_button,
      ApcButtonRange.RightSide, previous_page_button, next_page_button,
      ApcButtonRange.BottomSide, ApcButtonRange.Faders, echoOf]

/-- Claim C4: while the shift layer is active, a NoteOn on the "stop all"
(89), "previous page" (66) or "next page" (67) control is consumed by
the shift layer: the router's effects contain no observer echo, so the
message never reaches ordinary binding lookup or the observer channel
and no bound action for those identifiers can fire. -/
theorem c4_shift_consumes (env : Env) (ch v : Nat) :
    (new_message env true (Msg.note_on ch stop_all_button v)).2.any
        Effect.isEmit = false ∧
    (new_message env true (Msg.note_on ch previous_page_button v)).2.any
        Effect.isEmit = false ∧
    (new_message env true (Msg.note_on ch next_page_button v)).2.any
        Effect.isEmit = false := by
  refine ⟨?_, ?_, ?_⟩ <;>
    rcases env with ⟨cart, cues, o⟩ <;> cases cart <;> cases o <;>
      simp [new_message, isNoteOnAt, isNoteOffAt, isControlChangeAt,
        shift_button, ApcButtonRange.Shift, stop_all_button,
        ApcButtonRange.RightSide, previous_page_button, next_page_button,
        ApcButtonRange.BottomSide, ApcButtonRange.Faders,
        send_feedback, Effect.isEmit]

/-- Claim C3: shift activation is idempotent in its side effects.
Handling NoteOn on the shift control (note 98) twice in a row from the
inactive state leaves the shift flag exactly as a single activation
does, and the second NoteOn adds no feedback at all — only its ordinary
velocity-zeroed observer echo — so the indicator "On" burst is sent
exactly once.  Symmetrically, a NoteOff on the shift control while shift
is already inactive produces no "Off" indicator feedback, only the
ordinary echo. -/
theorem c3_shift_idempotent (env : Env) (ch1 v1 ch2 v2 ch3 v3 : Nat) :
    (run env false [Msg.note_on ch1 98 v1, Msg.note_on ch2 98 v2]).1 =
      (run env false [Msg.note_on ch1 98 v1]).1 ∧
    (run env false [Msg.note_on ch1 98 v1, Msg.note_on ch2 98 v2]).2 =
      (run env false [Msg.note_on ch1 98 v1]).2 ++
        [Effect.emit (Msg.note_on ch2 98 0)] ∧
    new_message env false (Msg.note_off ch3 98 v3) =
      (false, [Effect.emit (Msg.note_off ch3 98 0)]) := by
  refine ⟨?_, ?_, ?_⟩ <;>
    simp [run, new_message, isNoteOnAt, isNoteOffAt, isControlChangeAt,
      shift_button, ApcButtonRange.Shift, stop_all_button,
      ApcButtonRange.RightSide, previous_page_button, next_page_button,
      ApcButtonRange.BottomSide, ApcButtonRange.Faders,
      enable_shift_mode, send_feedback, echoOf]

/-- `emitOk target e`: if `e` is an observer echo, it publishes `target`. -/
def Effect.emitOk (target : Msg) : Effect → Bool
  | .emit m => m == target
  | _ => true

/-- Claim C6: every observer echo the router publishes is the
velocity-normalised copy of the inbound message — note-class messages
are echoed with velocity forced to 0 regardless of the original
velocity, and messages without a velocity field are echoed unchanged. -/
theorem c6_echo_normalised (env : Env) (shift : Bool) (m : Msg) :
    (new_message env shift m).2.all (Effect.emitOk (echoOf m)) = true ∧
    (∀ ch n v, echoOf (Msg.note_on ch n v) = Msg.note_on ch n 0) ∧
    (∀ ch n v, echoOf (Msg.note_off ch n v) = Msg.note_off ch n 0) ∧
    (∀ ch c v, echoOf (Msg.control_change ch c v) = Msg.control_change ch c v) := by
  refine ⟨?_, fun _ _ _ => rfl, fun _ _ _ => rfl, fun _ _ _ => rfl⟩
  rw [List.all_eq_true]
  intro e he
  rcases new_message_effects env shift m e he with
    ⟨k, c, rfl⟩ | rfl | rfl | rfl | ⟨cueId, v, rfl⟩ | rfl <;>
    simp [Effect.emitOk]

/-- `m` is a note-on message on MIDI channel 0. -/
def Msg.isChan0NoteOn : Msg → Bool
  | .note_on ch _ _ => ch == 0
  | _ => false

/-- `outboundOk e`: if `e` is a transport send, it is a channel-0 note-on. -/
def Effect.outboundOk : Effect → Bool
  | .sent m => m.isChan0NoteOn
  | _ => true

/-- Claim C7: every message the engine ever sends on the outbound MIDI
transport — shift indicator feedback, stop-all feedback and cue-state
feedback alike — is a note-on message with channel fixed to 0 whose note
is the target control identifier and whose velocity is the colour code
(`_send_feedback` builds exactly `Message("note_on", channel=0,
note=key, velocity=color)`): over any inbound message sequence every
transport send of the router is a channel-0 note-on, and so is every
message the cue-state feedback emitter sends. -/
theorem c7_outbound_invariant (env : Env) (shift : Bool) (ms : List Msg)
    (midi_from_str : String → Msg) (outputOpen : Bool) (cue : CueModel) :
    (run env shift ms).2.all Effect.outboundOk = true ∧
    (cue_status_changed midi_from_str outputOpen cue).1.all
        Msg.isChan0NoteOn = true ∧
    (∀ o key color, (send_feedback o key color).all
        (fun msg => msg == Msg.note_on 0 key color) = true) := by
  refine ⟨?_, ?_, ?_⟩
  · induction ms generalizing shift with
    | nil => rfl
    | cons m rest ih =>
      simp only [run, List.all_append, Bool.and_eq_true]
      refine ⟨?_, ih _⟩
      rw [List.all_eq_true]
      intro e he
      rcases new_message_effects env shift m e he with
        ⟨k, c, rfl⟩ | rfl | rfl | rfl | ⟨cueId, v, rfl⟩ | rfl <;>
        simp [Effect.outboundOk, Msg.isChan0NoteOn]
  · unfold cue_status_changed
    generalize cue.midiEntries = entries
    induction entries with
    | nil => rfl
    | cons e rest ih =>
      obtain ⟨key, action⟩ := e
      simp only [processEntries]
      rcases hnote : (midi_from_str key).noteOf with _ | note
      · rfl
      · simp only [List.all_append, Bool.and_eq_true]
        refine ⟨?_, ih⟩
        rw [List.all_eq_true]
        intro msg hmsg
        split_ifs at hmsg <;>
          first
          | cases hmsg
          | (have hm := mem_send_feedback _ _ _ _ hmsg
             subst hm
             simp [Msg.isChan0NoteOn])
  · intro o key color
    cases o <;> simp [send_feedback]

/-- A message whose `hasNote` probe fails has no `note` attribute. -/
lemma noteOf_eq_none_of_hasNote_false (m : Msg) (h : m.hasNote = false) :
    m.noteOf = none := by
  cases m <;> first | rfl | simp [Msg.hasNote] at h

/-- A message whose `hasNote` probe succeeds carries a note. -/
lemma noteOf_isSome_of_hasNote (m : Msg) (h : m.hasNote = true) :
    ∃ n, m.noteOf = some n := by
  cases m <;> first | exact ⟨_, rfl⟩ | simp [Msg.hasNote] at h

/-- The loop body of the feedback emitter agrees, entry by entry, with the
spec-side description `specEntryFeedback`. -/
lemma entry_feedback_eq_spec (o : Bool) (cue : CueModel) (m : Msg) (n : Nat)
    (hn : m.noteOf = some n) :
    specEntryFeedback o cue m =
      (if !note_in_range n ApcButtonRange.PushButton then []
       else if cue.isRunning then send_feedback o n ApcPushButtonColor.Green
       else if cue.isPaused then send_feedback o n ApcPushButtonColor.GreenBlink
       else if cue.isStopped then send_feedback o n ApcPushButtonColor.Yellow
       else []) := by
  simp only [specEntryFeedback, hn]
  cases note_in_range n ApcButtonRange.PushButton <;>
    cases cue.isRunning <;> cases cue.isPaused <;> cases cue.isStopped <;>
      cases o <;> simp [List.find?, send_feedback]

/-- When every entry of the list parses to a note-carrying message, the
feedback-emitter loop raises nothing and sends, in order, exactly the
spec-described feedback of each entry. -/
lemma processEntries_ok (midi_from_str : String → Msg) (o : Bool)
    (cue : CueModel) (l : List (String × String))
    (h : ∀ e ∈ l, (midi_from_str e.1).hasNote = true) :
    processEntries midi_from_str o cue l =
      (l.flatMap (fun e => specEntryFeedback o cue (midi_from_str e.1)),
        false) := by
  induction l with
  | nil => rfl
  | cons e rest ih =>
    obtain ⟨key, action⟩ := e
    obtain ⟨n, hn⟩ :=
      noteOf_isSome_of_hasNote _ (h _ (List.mem_cons_self _ _))
    simp only [processEntries, hn, List.flatMap_cons,
      ih (fun x hx => h x (List.mem_cons_of_mem _ hx)),
      entry_feedback_eq_spec o cue _ n hn]

/-- Claim C5: on every cue state change, each "midi" binding entry of the
cue whose bound note lies in the push-button range produces feedback
whose colour is chosen by first-match precedence over the cue's combined
state flags — Green if running, else GreenBlink if paused, else Yellow
if stopped, and nothing for any other state — while entries bound
outside the push-button range are skipped; the handler raises nothing
when every entry carries a note. -/
theorem c5_cue_feedback (midi_from_str : String → Msg) (outputOpen : Bool)
    (cue : CueModel)
    (h : ∀ e ∈ cue.midiEntries, (midi_from_str e.1).hasNote = true) :
    (cue_status_changed midi_from_str outputOpen cue).2 = false ∧
    (cue_status_changed midi_from_str outputOpen cue).1 =
      cue.midiEntries.flatMap
        (fun e => specEntryFeedback outputOpen cue (midi_from_str e.1)) := by
  unfold cue_status_changed
  rw [processEntries_ok midi_from_str outputOpen cue cue.midiEntries h]
  exact ⟨rfl, rfl⟩

/-- A codec for the `c5_cue_feedback` witness: every key parses to a
note-on bound to note 40. -/
def sampleParse40 : String → Msg := fun _ => Msg.note_on 0 40 0

/-- A paused cue bound to note 40 — the claim's concrete scenario. -/
def sampleCue : CueModel :=
  { isRunning := false, isPaused := true, isStopped := false,
    midiEntries := [("note_on channel=0 note=40 velocity=0", "pause")] }

/-- Witness for `c5_cue_feedback`: a cue bound to note 40 transitioning to
Paused produces exactly the feedback `NoteOn(note=40, velocity=2)`
(GreenBlink). -/
theorem c5_witness :
    (∀ e ∈ sampleCue.midiEntries, (sampleParse40 e.1).hasNote = true) ∧
    (cue_status_changed sampleParse40 true sampleCue).1 =
      [Msg.note_on 0 40 2] ∧
    (cue_status_changed sampleParse40 true sampleCue).2 = false := by
  have h : ∀ e ∈ sampleCue.midiEntries, (sampleParse40 e.1).hasNote = true :=
    fun e _ => rfl
  have hc := c5_cue_feedback sampleParse40 true sampleCue h
  exact ⟨h, by rw [hc.2]; rfl, hc.1⟩

/-- Claim C8: loading a stored binding list skips an unparseable entry and
continues — the resulting model holds exactly the parseable entries in
their original order, and a malformed entry never aborts loading of the
entries after it. -/
theorem c8_load_skips (midi_from_str : String → Option Msg)
    (entries pre post : List (String × String)) (bad : String × String)
    (hbad : midi_from_str bad.1 = none) :
    loadSettings midi_from_str entries =
      entries.filterMap
        (fun e => (midi_from_str e.1).map (fun m => (m, e.2))) ∧
    loadSettings midi_from_str (pre ++ bad :: post) =
      loadSettings midi_from_str pre ++ loadSettings midi_from_str post := by
  constructor
  · induction entries with
    | nil => rfl
    | cons e rest ih =>
      obtain ⟨key, action⟩ := e
      rcases hk : midi_from_str key with _ | m <;>
        simp [loadSettings, hk, ih]
  · induction pre with
    | nil =>
      obtain ⟨bkey, bact⟩ := bad
      simp only [List.nil_append]
      simp [loadSettings, hbad]
    | cons e rest ih =>
      obtain ⟨key, action⟩ := e
      rcases hk : midi_from_str key with _ | m <;>
        simp [loadSettings, hk, ih]

/-- A codec for the `c8_load_skips` witness: "bad" fails to parse, every
other key parses to a fixed note-on. -/
def sampleCodec : String → Option Msg := fun s =>
  if s = "bad" then none else some (Msg.note_on 0 1 0)

/-- Witness for `c8_load_skips`: a three-entry list whose middle entry is
malformed loads exactly its first and third entries, in order. -/
theorem c8_witness :
    sampleCodec "bad" = none ∧
    loadSettings sampleCodec [("x", "a"), ("bad", "b"), ("y", "c")] =
      [(Msg.note_on 0 1 0, "a"), (Msg.note_on 0 1 0, "c")] ∧
    loadSettings sampleCodec ([("x", "a")] ++ ("bad", "b") :: [("y", "c")]) =
      loadSettings sampleCodec [("x", "a")] ++
        loadSettings sampleCodec [("y", "c")] := by
  refine ⟨rfl, ?_,
    (c8_load_skips sampleCodec [] [("x", "a")] [("y", "c")] ("bad", "b")
      rfl).2⟩
  rw [(c8_load_skips sampleCodec [("x", "a"), ("bad", "b"), ("y", "c")] []
    [] ("bad", "b") rfl).1]
  rfl

/-- Splitting the entry list at the first note-less entry: the handler
raises there, after sending only the feedback of the entries before it. -/
lemma processEntries_raises (midi_from_str : String → Msg) (o : Bool)
    (cue : CueModel) (pre post : List (String × String))
    (bad : String × String)
    (hpre : ∀ e ∈ pre, (midi_from_str e.1).hasNote = true)
    (hbad : (midi_from_str bad.1).hasNote = false) :
    processEntries midi_from_str o cue (pre ++ bad :: post) =
      ((processEntries midi_from_str o cue pre).1, true) := by
  induction pre with
  | nil =>
    obtain ⟨bkey, bact⟩ := bad
    have hn := noteOf_eq_none_of_hasNote_false _ hbad
    simp only [List.nil_append, processEntries, hn]
  | cons e rest ih =>
    obtain ⟨key, action⟩ := e
    obtain ⟨n, hn⟩ :=
      noteOf_isSome_of_hasNote _ (hpre _ (List.mem_cons_self _ _))
    simp only [List.cons_append, processEntries, hn, List.append_eq,
      ih (fun x hx => hpre x (List.mem_cons_of_mem _ hx))]

/-- Claim C9: if a cue's "midi" controller list contains an entry whose
stored key parses to a message type without a `note` field (e.g. a
control-change binding), the cue-state-change handler raises when it
reaches that entry instead of skipping it, and no feedback is sent for
any entry after it. -/
theorem c9_noteless_entry_raises (midi_from_str : String → Msg)
    (outputOpen : Bool) (cue : CueModel)
    (pre post : List (String × String)) (bad : String × String)
    (hsplit : cue.midiEntries = pre ++ bad :: post)
    (hpre : ∀ e ∈ pre, (midi_from_str e.1).hasNote = true)
    (hbad : (midi_from_str bad.1).hasNote = false) :
    (cue_status_changed midi_from_str outputOpen cue).2 = true ∧
    (cue_status_changed midi_from_str outputOpen cue).1 =
      (processEntries midi_from_str outputOpen cue pre).1 := by
  unfold cue_status_changed
  rw [hsplit,
    processEntries_raises midi_from_str outputOpen cue pre post bad hpre hbad]
  exact ⟨rfl, rfl⟩

/-- A codec for the `c9_noteless_entry_raises` witness: "cc" parses to a
control-change (no note attribute), every other key to a note-on on
note 40. -/
def sampleCodecCC : String → Msg := fun s =>
  if s = "cc" then Msg.control_change 0 7 0 else Msg.note_on 0 40 0

/-- A running cue whose middle "midi" entry parses to a control-change. -/
def sampleCueCC : CueModel :=
  { isRunning := true, isPaused := false, isStopped := false,
    midiEntries := [("pad", "go"), ("cc", "go"), ("pad", "go")] }

/-- Witness for `c9_noteless_entry_raises`: the handler raises at the
control-change entry; only the first entry's feedback (Green on note 40)
was sent, none for the entry after the bad one. -/
theorem c9_witness :
    sampleCueCC.midiEntries = [("pad", "go")] ++ ("cc", "go") :: [("pad", "go")] ∧
    (∀ e ∈ [(("pad" : String), ("go" : String))],
      (sampleCodecCC e.1).hasNote = true) ∧
    (sampleCodecCC ("cc", "go").1).hasNote = false ∧
    (cue_status_changed sampleCodecCC true sampleCueCC).2 = true ∧
    (cue_status_changed sampleCodecCC true sampleCueCC).1 =
      [Msg.note_on 0 40 1] := by
  have hpre : ∀ e ∈ [(("pad" : String), ("go" : String))],
      (sampleCodecCC e.1).hasNote = true := by decide
  have hbad : (sampleCodecCC ("cc", "go").1).hasNote = false := by decide
  have h := c9_noteless_entry_raises sampleCodecCC true sampleCueCC
    [("pad", "go")] [("pad", "go")] ("cc", "go") rfl hpre hbad
  exact ⟨rfl, hpre, hbad, h.1, by rw [h.2]; rfl⟩

end LispController
